import Mathlib

/-!
Verification development for the Elkbot message-ingestion bot.

The repository has two variants of the ingestion code:
* `src/unnamed/part_000` — the full pipeline: a history paginator
  (`_PaginateMessages`), an index writer (`_InsertIndex`), message and
  attachment projectors (`_IngestMessage`, `_IngestAttachment`), and an
  authorized command handler (`_IngestHandler`).
* `src/elkbot.go` — an older variant whose `_IngestHandler` performs a single
  page fetch, no authorization check, and inlines the index write.

External effects (Discord history fetches, Elasticsearch index requests,
chat sends) are embedded as explicit oracles plus event traces emitted at the
source's call sites.  Machine behaviour that Go realizes as a runtime panic
(nil-pointer dereference) is embedded as `Option.none`.
-/

/-- A Discord message attachment (the fields `part_000` reads). -/
structure Attachment where
  id : String
  filename : String
  url : String
  proxyURL : String
  height : Int
  width : Int
  size : Int
deriving DecidableEq

/-- The author of a message (`message.Author` — only `.ID` is read). -/
structure User where
  id : String
deriving DecidableEq

/-- A Discord message (the fields the ingestion code reads). -/
structure Msg where
  id : String
  channelID : String
  content : String
  author : User
  timestamp : String
  attachments : List Attachment
deriving DecidableEq

/-- A value stored in an indexed document: Go's `map[string]interface{}`
holds strings and integers here. -/
inductive FieldVal where
  | s (v : String)
  | n (v : Int)
deriving DecidableEq

/-- The document body `map[string]interface{}`, in source field order. -/
def Document := List (String × FieldVal)
deriving DecidableEq

/-- An `esapi.IndexRequest` as built by the code. -/
structure IndexRequest where
  index : String
  documentID : String
  body : Document
  refresh : String
deriving DecidableEq

/-- An Elasticsearch response: `resp.IsError()` and `resp.Status()`. -/
structure Resp where
  isError : Bool
  status : String
deriving DecidableEq

/-- Oracle for `req.Do(ctx, esClient)`: either a transport error or a
response. -/
def DoFn := IndexRequest → Except String Resp

/-- Oracle for `session.ChannelMessages(channelID, limit, beforeID, afterID,
aroundID)`: either a fetch error or a page of messages (newest first). -/
def FetchFn := String → Nat → String → String → String → Except String (List Msg)

/-- Events emitted at the paginator's two call sites: a history fetch (with
its arguments and outcome) and a callback invocation (with its page and
outcome). -/
inductive Ev where
  | fetchEv (channelID : String) (limit : Nat)
      (beforeID afterID aroundID : String) (result : Except String (List Msg))
  | callbackEv (page : List Msg) (result : Except String Unit)

/-- Outcome of a paginator run: a terminated run with its event trace and
returned value, or fuel exhaustion (the Go loop not yet terminated). -/
inductive PRun where
  | out (trace : List Ev) (res : Except String Unit)
  | fuelOut (trace : List Ev)

/-- Prepend an event to a run's trace. -/
def consTrace (e : Ev) : PRun → PRun
  | .out t r => .out (e :: t) r
  | .fuelOut t => .fuelOut (e :: t)

/-- `messages[len(messages)-1].ID`: identifier of the last message of a
(non-empty) page. -/
def lastId (l : List Msg) : String :=
  match l.getLast? with
  | some m => m.id
  | none => ""

/-- The `for len(messages) > 0` loop body of `_PaginateMessages`
(src/unnamed/part_000 lines 37-48), with explicit fuel for the unbounded
loop. -/
def _PaginateMessagesLoop (fetch : FetchFn) (channelID : String)
    (callback : List Msg → Except String Unit) :
    Nat → List Msg → PRun
  | _, [] => .out [] (.ok ())
  | 0, _ :: _ => .fuelOut []
  | fuel + 1, m :: ms =>
    match callback (m :: ms) with
    | .error e =>
      .out [.callbackEv (m :: ms) (.error e)]
        (.error ("error when processing messages: " ++ e))
    | .ok () =>
      match fetch channelID 100 (lastId (m :: ms)) ("") ("") with
      | .error e =>
        .out [.callbackEv (m :: ms) (.ok ()),
              .fetchEv channelID 100 (lastId (m :: ms)) ("") ("") (.error e)]
          (.error ("error fetching messages from Discord: " ++ e))
      | .ok next =>
        consTrace (.callbackEv (m :: ms) (.ok ()))
          (consTrace (.fetchEv channelID 100 (lastId (m :: ms)) ("") ("") (.ok next))
            (_PaginateMessagesLoop fetch channelID callback fuel next))

/-- `_PaginateMessages` (src/unnamed/part_000 lines 32-51): initial fetch
with empty cursor, then the loop. -/
def _PaginateMessages (fetch : FetchFn) (channelID : String)
    (callback : List Msg → Except String Unit) (fuel : Nat) : PRun :=
  match fetch channelID 100 ("") ("") ("") with
  | .error e =>
    .out [.fetchEv channelID 100 ("") ("") ("") (.error e)]
      (.error ("error fetching messages from Discord: " ++ e))
  | .ok messages =>
    consTrace (.fetchEv channelID 100 ("") ("") ("") (.ok messages))
      (_PaginateMessagesLoop fetch channelID callback fuel messages)

/-- A message with a given numeric identifier and no other content. -/
def mkMsg (i : Nat) : Msg :=
  { id := toString i, channelID := "c", content := "", author := { id := "a" },
    timestamp := "", attachments := [] }

/-- Fetch oracle for a channel holding exactly 250 messages, newest first:
the first page is messages 0-99, the page before "99" is 100-199, the page
before "199" is 200-249, and anything older is empty. -/
def fetch250 : FetchFn := fun _ _ before _ _ =>
  if before = "" then .ok ((List.range 100).map mkMsg)
  else if before = "99" then .ok ((List.range 100).map (fun i => mkMsg (100 + i)))
  else if before = "199" then .ok ((List.range 50).map (fun i => mkMsg (200 + i)))
  else .ok []

/-- Number of fetch events in a trace. -/
def countFetch (t : List Ev) : Nat :=
  t.countP (fun ev => match ev with | .fetchEv _ _ _ _ _ _ => true | _ => false)

/-- Trace of a run. -/
def traceOf : PRun → List Ev
  | .out t _ => t
  | .fuelOut t => t

/-- Result of a terminated run. -/
def resOf : PRun → Option (Except String Unit)
  | .out _ r => some r
  | .fuelOut _ => none

/-- The paginator run over the 250-message channel with a callback that
always succeeds. -/
def run250 : PRun :=
  _PaginateMessages fetch250 ("c") (fun _ => .ok ()) 10

/-- `_InsertIndex` (src/unnamed/part_000 lines 53-74): build the index
request, run it against the oracle, fail on transport error or error status.
Also returns the request issued (the write attempted). -/
def _InsertIndex (doReq : DoFn) (data : Document)
    (indexName : String) (documentID : String) :
    Except String Unit × List IndexRequest :=
  let req : IndexRequest :=
    { index := indexName, documentID := documentID, body := data, refresh := "true" }
  match doReq req with
  | .error e => (.error e, [req])
  | .ok resp =>
    if resp.isError then (.error ("got status code " ++ resp.status), [req])
    else (.ok (), [req])

/-- The document body built by `_IngestAttachment` (lines 77-86), in source
order. -/
def attachmentDoc (attachment : Attachment) (message : Msg) : Document :=
  [("filename", .s attachment.filename),
   ("height", .n attachment.height),
   ("width", .n attachment.width),
   ("size", .n attachment.size),
   ("url", .s attachment.url),
   ("proxy_url", .s attachment.proxyURL),
   ("message_id", .s message.id),
   ("timestamp", .s message.timestamp)]

/-- `_IngestAttachment` (src/unnamed/part_000 lines 76-94): project the
attachment into a document and write it to index "attachments" keyed by the
attachment's identifier, wrapping any error. -/
def _IngestAttachment (doReq : DoFn) (attachment : Attachment) (message : Msg) :
    Except String Unit × List IndexRequest :=
  match _InsertIndex doReq (attachmentDoc attachment message) ("attachments") attachment.id with
  | (.error e, t) => (.error ("error ingesting attachment: " ++ e), t)
  | (.ok (), t) => (.ok (), t)

/-- The document body built by `_IngestMessage` (lines 97-102), in source
order. -/
def messageDoc (message : Msg) : Document :=
  [("content", .s message.content),
   ("channel_id", .s message.channelID),
   ("author_id", .s message.author.id),
   ("timestamp", .s message.timestamp)]

/-- Is an `error` value non-nil? -/
def isErrE : Except String Unit → Bool
  | .error _ => true
  | .ok _ => false

/-- The message of an `error` value ("" for nil). -/
def errMsg : Except String Unit → String
  | .error e => e
  | .ok _ => ""

/-- The `for _, attachment := range message.Attachments` loop of
`_IngestMessage` (lines 111-116): ingest each attachment in order, returning
the first error as-is. -/
def ingestAttachLoop (doReq : DoFn) (message : Msg) :
    List Attachment → Except String Unit × List IndexRequest
  | [] => (.ok (), [])
  | a :: rest =>
    match _IngestAttachment doReq a message with
    | (.error e, t) => (.error e, t)
    | (.ok (), t) =>
      match ingestAttachLoop doReq message rest with
      | (r, t2) => (r, t ++ t2)

/-- `_IngestMessage` (src/unnamed/part_000 lines 96-119), including the
source's duplicated nested `if err != nil` check (lines 104-109): the outer
and inner tests are on the same error value; if both tests passed but the
inner branch were skipped, control would fall through to the attachment
loop, exactly as when the outer test fails. -/
def _IngestMessage (doReq : DoFn) (message : Msg) :
    Except String Unit × List IndexRequest :=
  match _InsertIndex doReq (messageDoc message) ("messages") message.id with
  | (r0, t0) =>
    if isErrE r0 then
      if isErrE r0 then
        (.error ("error ingesting message: " ++ errMsg r0), t0)
      else
        match ingestAttachLoop doReq message message.attachments with
        | (r, t) => (r, t0 ++ t)
    else
      match ingestAttachLoop doReq message message.attachments with
      | (r, t) => (r, t0 ++ t)

/-- `_IngestMessage` rewritten with a single error check, the reference
implementation the spec proposes (claim C8's comparison point). -/
def _IngestMessageSingleCheck (doReq : DoFn) (message : Msg) :
    Except String Unit × List IndexRequest :=
  match _InsertIndex doReq (messageDoc message) ("messages") message.id with
  | (r0, t0) =>
    if isErrE r0 then
      (.error ("error ingesting message: " ++ errMsg r0), t0)
    else
      match ingestAttachLoop doReq message message.attachments with
      | (r, t) => (r, t0 ++ t)

/-- The page callback passed by `_IngestHandler` to `_PaginateMessages`
(src/unnamed/part_000 lines 188-196): ingest each message of the page,
stopping at the first error. -/
def ingestPage (doReq : DoFn) : List Msg → Except String Unit × List IndexRequest
  | [] => (.ok (), [])
  | m :: rest =>
    match _IngestMessage doReq m with
    | (.error e, t) => (.error e, t)
    | (.ok (), t) =>
      match ingestPage doReq rest with
      | (r, t2) => (r, t ++ t2)

/-- The index requests issued during a paginator run whose callback is
`ingestPage doReq`: the callback is a pure function of its page, so the
writes are recovered from the callback events of the trace. -/
def writesOf (doReq : DoFn) (t : List Ev) : List IndexRequest :=
  (t.map fun ev =>
    match ev with
    | .callbackEv p _ => (ingestPage doReq p).2
    | _ => []).flatten

/-- Output of a handler invocation: the index requests issued and the chat
messages sent (channel, content). -/
structure HandlerOut where
  writes : List IndexRequest
  sends : List (String × String)

/-- The ingest command's argument bundle. -/
structure IngestArgs where
  channelID : String

/-- `_IngestHandler` (src/unnamed/part_000 lines 186-204): refuse callers
other than the hardcoded identifier (log only, no sends, no writes), else
paginate with the per-page ingest callback and report success or the wrapped
error in a code block.  `none` models a run whose pagination never
terminates (fuel exhaustion). -/
def _IngestHandler (fetch : FetchFn) (doReq : DoFn) (message : Msg)
    (args : IngestArgs) (fuel : Nat) : Option HandlerOut :=
  if message.author.id ≠ "106162668032802816" then
    some { writes := [], sends := [] }
  else
    match _PaginateMessages fetch args.channelID (fun p => (ingestPage doReq p).1) fuel with
    | .fuelOut _ => none
    | .out t res =>
      match res with
      | .error e =>
        some { writes := writesOf doReq t,
               sends := [(message.channelID, "```\n" ++ e ++ "\n```")] }
      | .ok () =>
        some { writes := writesOf doReq t,
               sends := [(message.channelID, "Channel messages successfully ingested.")] }

/-- A record of one `session.ChannelMessages` call. -/
structure FetchCall where
  channelID : String
  limit : Nat
  beforeID : String
  afterID : String
  aroundID : String
deriving DecidableEq

namespace ElkbotGo

/-- The document body built inline by `_IngestHandler` in src/elkbot.go
(lines 102-106): content, author_id, timestamp — no channel_id. -/
def documentBody (hm : Msg) : Document :=
  [("content", .s hm.content),
   ("author_id", .s hm.author.id),
   ("timestamp", .s hm.timestamp)]

/-- The index request built for a history message (src/elkbot.go lines
110-115). -/
def reqOf (hm : Msg) : IndexRequest :=
  { index := "messages", documentID := hm.id, body := documentBody hm, refresh := "true" }

/-- The `for _, historyMessage := range messages` loop of src/elkbot.go
(lines 101-127).  When `req.Do` returns a transport error, `resp` is nil;
the code only logs and then executes `defer resp.Body.Close()`, which
dereferences the nil response — a runtime panic, modelled as `none`.  A
response with an error status is only logged and the loop continues. -/
def ingestLoop (doReq : DoFn) : List Msg → Option (List IndexRequest)
  | [] => some []
  | hm :: rest =>
    match doReq (reqOf hm) with
    | .error _ => none
    | .ok _ =>
      match ingestLoop doReq rest with
      | none => none
      | some ws => some (reqOf hm :: ws)

/-- Go's `fmt.Sprintf("%#v", args)` rendering of the argument struct. -/
def argsRepr (args : IngestArgs) : String :=
  "main._IngestArgs\x7bChannelID:\"" ++ args.channelID ++ "\"\x7d"

/-- `_IngestHandler` from src/elkbot.go (lines 93-130): a single history
fetch (limit 100, no cursor, no pagination), no authorization check, then
the per-message index loop, then an unconditional confirmation send.  The
first component records the `ChannelMessages` calls made; `none` in the
second models the nil-pointer panic inside the loop. -/
def _IngestHandler (fetch : FetchFn) (doReq : DoFn) (message : Msg)
    (args : IngestArgs) : List FetchCall × Option HandlerOut :=
  let calls : List FetchCall := [⟨args.channelID, 100, "", "", ""⟩]
  match fetch args.channelID 100 ("") ("") ("") with
  | .error e =>
    (calls, some { writes := [],
                   sends := [(message.channelID,
                     "```\nfailed to retrieve message history: " ++ e ++ "\n```")] })
  | .ok messages =>
    match ingestLoop doReq messages with
    | none => (calls, none)
    | some ws =>
      (calls, some { writes := ws,
                     sends := [(message.channelID, "```go\n" ++ argsRepr args ++ "\n```")] })

end ElkbotGo

/-- Is an event a callback invocation? -/
def isCallbackEv : Ev → Bool
  | .callbackEv _ _ => true
  | _ => false

/-- Is an event a fetch that returned a non-empty page? -/
def isFetchOkPage : Ev → Bool
  | .fetchEv _ _ _ _ _ (.ok (_ :: _)) => true
  | _ => false

/-- Checks the cursor discipline along a trace: every successful callback on
a page is immediately followed by a fetch whose `beforeID` is the identifier
of the last (oldest) message of that page. -/
def cursorChain : List Ev → Bool
  | [] => true
  | .callbackEv page (.ok ()) :: rest =>
    (match rest with
     | .fetchEv _ _ before _ _ _ :: _ => decide (before = lastId page)
     | _ => false) && cursorChain rest
  | _ :: rest => cursorChain rest

/-- Checks that every fetch returning a non-empty page is immediately
followed by a callback invocation on exactly that page. -/
def pagesMatch : List Ev → Bool
  | [] => true
  | .fetchEv _ _ _ _ _ (.ok (m :: ms)) :: rest =>
    (match rest with
     | .callbackEv page _ :: _ => decide (page = m :: ms)
     | _ => false) && pagesMatch rest
  | _ :: rest => pagesMatch rest

/-- Does the trace end with a fetch that returned zero messages? -/
def endsEmptyFetch (t : List Ev) : Bool :=
  match t.getLast? with
  | some (.fetchEv _ _ _ _ _ (.ok [])) => true
  | _ => false

/-- The index request `_IngestMessage` issues for a message. -/
def msgReq (message : Msg) : IndexRequest :=
  { index := "messages", documentID := message.id,
    body := messageDoc message, refresh := "true" }

/-- The index request `_IngestAttachment` issues for an attachment. -/
def attachReq (a : Attachment) (message : Msg) : IndexRequest :=
  { index := "attachments", documentID := a.id,
    body := attachmentDoc a message, refresh := "true" }

/-- A response with a success status. -/
def respOK : Resp := { isError := false, status := "201 Created" }

/-- A response with a failure status. -/
def respBad : Resp := { isError := true, status := "400 Bad Request" }

/-- An index oracle whose every write succeeds. -/
def doReqOK : DoFn := fun _ => .ok respOK

/-- An index oracle whose every write returns a failure status. -/
def doReqBad : DoFn := fun _ => .ok respBad

/-- An index oracle whose every transport call errors. -/
def doReqDown : DoFn := fun _ => .error "connection refused"

/-- An index oracle that accepts message documents but errors on attachment
documents. -/
def doReqAttachFail : DoFn := fun req =>
  if req.index = "attachments" then .error "boom" else .ok respOK

/-- A fetch oracle for an empty channel. -/
def fetchEmpty : FetchFn := fun _ _ _ _ _ => .ok []

/-- A fetch oracle for a channel with a single message. -/
def fetchOne : FetchFn := fun _ _ _ _ _ => .ok [mkMsg 0]

/-- A sample attachment. -/
def attachW1 : Attachment :=
  { id := "a1", filename := "f1.png", url := "u1", proxyURL := "p1",
    height := 10, width := 20, size := 30 }

/-- A second sample attachment. -/
def attachW2 : Attachment :=
  { id := "a2", filename := "f2.png", url := "u2", proxyURL := "p2",
    height := 1, width := 2, size := 3 }

/-- A sample message from the authorized caller, with two attachments. -/
def msgW : Msg :=
  { id := "m1", channelID := "c1", content := "hello",
    author := { id := "106162668032802816" }, timestamp := "t1",
    attachments := [attachW1, attachW2] }

/-- A sample message from an unauthorized caller. -/
def outsider : Msg :=
  { id := "m2", channelID := "c1", content := "hi",
    author := { id := "999" }, timestamp := "t2", attachments := [] }

/-! ## Theorems -/

/-- The index writer issues exactly the one request it was asked, whatever
the oracle answers. -/
theorem insertIndex_snd (doReq : DoFn) (data : Document)
    (indexName : String) (documentID : String) :
    (_InsertIndex doReq data indexName documentID).2 =
      [{ index := indexName, documentID := documentID, body := data, refresh := "true" }] := by
  unfold _InsertIndex
  rcases h : doReq { index := indexName, documentID := documentID, body := data, refresh := "true" } with e | resp
  · simp [h]
  · by_cases hr : resp.isError <;> simp [h, hr]

/-- The attachment projector issues exactly one request, for its own
attachment. -/
theorem ingestAttachment_snd (doReq : DoFn) (a : Attachment) (message : Msg) :
    (_IngestAttachment doReq a message).2 = [attachReq a message] := by
  unfold _IngestAttachment
  rcases hI : _InsertIndex doReq (attachmentDoc a message) ("attachments") a.id with ⟨r0, t0⟩
  have h2 := insertIndex_snd doReq (attachmentDoc a message) ("attachments") a.id
  rw [hI] at h2
  cases r0 <;> simp_all [attachReq]

/-- C1 (counterexample): on the 250-message channel the paginator issues 4
history fetches, not 3 — it refetches after every non-empty page, not only
after pages of exactly 100 messages. -/
theorem paginate250_fetch_count_ne_three : ¬ countFetch (traceOf run250) = 3 := by
  decide

/-- C1 (amended): on the 250-message channel the paginator issues exactly 4
history fetches (pages of 100, 100, 50, then 0), invokes the callback
exactly 3 times, and terminates normally: a further fetch follows every
non-empty page regardless of its size, and pagination stops only when a
fetch returns zero messages. -/
theorem paginate250_four_fetches :
    countFetch (traceOf run250) = 4 ∧
    (traceOf run250).countP isCallbackEv = 3 ∧
    resOf run250 = some (.ok ()) :=
  ⟨by decide, by decide, rfl⟩

/-- C8: `_IngestMessage` with the source's duplicated nested error check is
extensionally equal to the single-check variant: for every index oracle and
every message the two return the same result and the same writes. -/
theorem ingestMessage_double_check_eq (doReq : DoFn) (message : Msg) :
    _IngestMessage doReq message = _IngestMessageSingleCheck doReq message := by
  unfold _IngestMessage _IngestMessageSingleCheck
  rcases hI : _InsertIndex doReq (messageDoc message) ("messages") message.id with ⟨r0, t0⟩
  cases hr : isErrE r0 <;> simp [hr]

/-- Loop invariant for the callback/fetch counts: a terminated loop run
started on `msgs` invokes the callback once per non-empty page fetched
inside the loop, plus once for `msgs` itself when non-empty. -/
theorem paginateLoop_count (fetch : FetchFn) (channelID : String)
    (callback : List Msg → Except String Unit) :
    ∀ (fuel : Nat) (msgs : List Msg) (t : List Ev) (r : Except String Unit),
    _PaginateMessagesLoop fetch channelID callback fuel msgs = .out t r →
    t.countP isCallbackEv = t.countP isFetchOkPage + (if msgs = [] then 0 else 1) := by
  intro fuel
  induction fuel with
  | zero =>
    intro msgs t r h
    cases msgs with
    | nil =>
      simp only [_PaginateMessagesLoop, PRun.out.injEq] at h
      obtain ⟨ht, hr⟩ := h
      subst ht
      simp
    | cons m ms =>
      simp only [_PaginateMessagesLoop] at h
      exact absurd h (by simp)
  | succ fuel ih =>
    intro msgs t r h
    cases msgs with
    | nil =>
      simp only [_PaginateMessagesLoop, PRun.out.injEq] at h
      obtain ⟨ht, hr⟩ := h
      subst ht
      simp
    | cons m ms =>
      simp only [_PaginateMessagesLoop] at h
      split at h
      · -- callback returned an error
        simp only [PRun.out.injEq] at h
        obtain ⟨ht, hr⟩ := h
        subst ht
        simp [isCallbackEv, isFetchOkPage]
      · -- callback ok; split on the next fetch
        split at h
        · simp only [PRun.out.injEq] at h
          obtain ⟨ht, hr⟩ := h
          subst ht
          simp [isCallbackEv, isFetchOkPage]
        · -- fetch ok: recurse
          rename_i next hfetch
          rcases hrec : _PaginateMessagesLoop fetch channelID callback fuel next with ⟨t2, r2⟩ | t2
          · rw [hrec] at h
            simp only [consTrace, PRun.out.injEq] at h
            obtain ⟨ht, hr⟩ := h
            subst ht
            have := ih next t2 r2 hrec
            cases next with
            | nil =>
              simp only [List.countP_cons, isCallbackEv, isFetchOkPage] at this ⊢
              simp_all
            | cons x xs =>
              simp only [List.countP_cons, isCallbackEv, isFetchOkPage] at this ⊢
              simp_all
          · rw [hrec] at h
            simp [consTrace] at h

/-- Prepending an event prepends it to the trace of the run. -/
theorem traceOf_consTrace (e : Ev) (p : PRun) :
    traceOf (consTrace e p) = e :: traceOf p := by
  cases p <;> rfl

/-- `endsEmptyFetch` ignores a prepended event when the trace is
non-empty. -/
theorem endsEmptyFetch_cons (e : Ev) (t : List Ev) (h : t ≠ []) :
    endsEmptyFetch (e :: t) = endsEmptyFetch t := by
  cases t with
  | nil => contradiction
  | cons a l => simp [endsEmptyFetch, List.getLast?_cons_cons]

/-- Loop invariant for the cursor discipline: every successful callback is
immediately followed by a fetch whose cursor is the last message of the
callback's page. -/
theorem paginateLoop_cursorChain (fetch : FetchFn) (channelID : String)
    (callback : List Msg → Except String Unit) :
    ∀ (fuel : Nat) (msgs : List Msg),
    cursorChain (traceOf (_PaginateMessagesLoop fetch channelID callback fuel msgs)) = true := by
  intro fuel
  induction fuel with
  | zero =>
    intro msgs
    cases msgs with
    | nil => rfl
    | cons m ms => rfl
  | succ fuel ih =>
    intro msgs
    cases msgs with
    | nil => rfl
    | cons m ms =>
      simp only [_PaginateMessagesLoop]
      rcases hcb : callback (m :: ms) with e | u
      · simp [cursorChain, traceOf]
      · cases u
        rcases hf : fetch channelID 100 (lastId (m :: ms)) ("") ("") with e | next
        · simp [cursorChain, traceOf]
        · simp only [traceOf_consTrace, cursorChain]
          simp [ih next]

/-- Loop invariant: in a terminated loop run every fetch returning a
non-empty page is immediately followed by a callback on exactly that page,
and the trace of a run started on a non-empty page opens with the callback
on that page. -/
theorem paginateLoop_pagesMatch (fetch : FetchFn) (channelID : String)
    (callback : List Msg → Except String Unit) :
    ∀ (fuel : Nat) (msgs : List Msg) (t : List Ev) (r : Except String Unit),
    _PaginateMessagesLoop fetch channelID callback fuel msgs = .out t r →
    pagesMatch t = true ∧
    (∀ m ms, msgs = m :: ms → ∃ res2 rest, t = .callbackEv (m :: ms) res2 :: rest) := by
  intro fuel
  induction fuel with
  | zero =>
    intro msgs t r h
    cases msgs with
    | nil =>
      simp only [_PaginateMessagesLoop, PRun.out.injEq] at h
      obtain ⟨ht, hr⟩ := h
      subst ht
      exact ⟨rfl, by intro m ms hmm; simp at hmm⟩
    | cons m ms =>
      simp only [_PaginateMessagesLoop] at h
      exact absurd h (by simp)
  | succ fuel ih =>
    intro msgs t r h
    cases msgs with
    | nil =>
      simp only [_PaginateMessagesLoop, PRun.out.injEq] at h
      obtain ⟨ht, hr⟩ := h
      subst ht
      exact ⟨rfl, by intro m ms hmm; simp at hmm⟩
    | cons m ms =>
      simp only [_PaginateMessagesLoop] at h
      split at h
      · simp only [PRun.out.injEq] at h
        obtain ⟨ht, hr⟩ := h
        subst ht
        refine ⟨rfl, ?_⟩
        intro m2 ms2 hmm
        rw [List.cons.injEq] at hmm
        obtain ⟨h1, h2⟩ := hmm
        subst h1; subst h2
        exact ⟨_, _, rfl⟩
      · split at h
        · simp only [PRun.out.injEq] at h
          obtain ⟨ht, hr⟩ := h
          subst ht
          refine ⟨rfl, ?_⟩
          intro m2 ms2 hmm
          rw [List.cons.injEq] at hmm
          obtain ⟨h1, h2⟩ := hmm
          subst h1; subst h2
          exact ⟨_, _, rfl⟩
        · rename_i next hfetch
          rcases hrec : _PaginateMessagesLoop fetch channelID callback fuel next with ⟨t2, r2⟩ | t2
          · rw [hrec] at h
            simp only [consTrace, PRun.out.injEq] at h
            obtain ⟨ht, hr⟩ := h
            subst ht
            obtain ⟨hpm, hhead⟩ := ih next t2 r2 hrec
            constructor
            · cases next with
              | nil => simpa [pagesMatch] using hpm
              | cons x xs =>
                obtain ⟨res2, rest, ht2⟩ := hhead x xs rfl
                subst ht2
                simp only [pagesMatch] at hpm ⊢
                simp_all
            · intro m2 ms2 hmm
              rw [List.cons.injEq] at hmm
              obtain ⟨h1, h2⟩ := hmm
              subst h1; subst h2
              exact ⟨_, _, rfl⟩
          · rw [hrec] at h
            simp [consTrace] at h

/-- Loop invariant: a terminated loop run started on a non-empty page has a
non-empty trace and returns success exactly when its trace ends with a fetch
that returned zero messages. -/
theorem paginateLoop_ends (fetch : FetchFn) (channelID : String)
    (callback : List Msg → Except String Unit) :
    ∀ (fuel : Nat) (msgs : List Msg) (t : List Ev) (r : Except String Unit),
    msgs ≠ [] →
    _PaginateMessagesLoop fetch channelID callback fuel msgs = .out t r →
    t ≠ [] ∧ ((r = .ok ()) ↔ endsEmptyFetch t = true) := by
  intro fuel
  induction fuel with
  | zero =>
    intro msgs t r hne h
    cases msgs with
    | nil => exact absurd rfl hne
    | cons m ms =>
      simp only [_PaginateMessagesLoop] at h
      exact absurd h (by simp)
  | succ fuel ih =>
    intro msgs t r hne h
    cases msgs with
    | nil => exact absurd rfl hne
    | cons m ms =>
      simp only [_PaginateMessagesLoop] at h
      split at h
      · simp only [PRun.out.injEq] at h
        obtain ⟨ht, hr⟩ := h
        subst ht; subst hr
        refine ⟨by simp, ?_⟩
        simp [endsEmptyFetch]
      · split at h
        · simp only [PRun.out.injEq] at h
          obtain ⟨ht, hr⟩ := h
          subst ht; subst hr
          refine ⟨by simp, ?_⟩
          simp [endsEmptyFetch, List.getLast?_cons_cons]
        · rename_i next hfetch
          rcases hrec : _PaginateMessagesLoop fetch channelID callback fuel next with ⟨t2, r2⟩ | t2
          · rw [hrec] at h
            simp only [consTrace, PRun.out.injEq] at h
            obtain ⟨ht, hr⟩ := h
            subst ht; subst hr
            cases next with
            | nil =>
              simp only [_PaginateMessagesLoop, PRun.out.injEq] at hrec
              obtain ⟨ht2, hr2⟩ := hrec
              subst ht2; subst hr2
              refine ⟨by simp, ?_⟩
              simp [endsEmptyFetch, List.getLast?_cons_cons]
            | cons x xs =>
              obtain ⟨hne2, hiff⟩ := ih (x :: xs) t2 r2 (by simp) hrec
              refine ⟨by simp, ?_⟩
              rw [endsEmptyFetch_cons _ _ (by simp),
                  endsEmptyFetch_cons _ _ hne2]
              exact hiff
          · rw [hrec] at h
            simp [consTrace] at h

/-- Loop invariant: if a callback event carrying an error appears in a
terminated loop run, it is the last event and the run's result is that error
wrapped with the processing prefix. -/
theorem paginateLoop_cbError (fetch : FetchFn) (channelID : String)
    (callback : List Msg → Except String Unit) :
    ∀ (fuel : Nat) (msgs : List Msg) (t : List Ev) (r : Except String Unit),
    _PaginateMessagesLoop fetch channelID callback fuel msgs = .out t r →
    ∀ page e, (Ev.callbackEv page (.error e)) ∈ t →
    t.getLast? = some (Ev.callbackEv page (.error e)) ∧
    r = .error ("error when processing messages: " ++ e) := by
  intro fuel
  induction fuel with
  | zero =>
    intro msgs t r h page e hmem
    cases msgs with
    | nil =>
      simp only [_PaginateMessagesLoop, PRun.out.injEq] at h
      obtain ⟨ht, hr⟩ := h
      subst ht
      simp at hmem
    | cons m ms =>
      simp only [_PaginateMessagesLoop] at h
      exact absurd h (by simp)
  | succ fuel ih =>
    intro msgs t r h page e hmem
    cases msgs with
    | nil =>
      simp only [_PaginateMessagesLoop, PRun.out.injEq] at h
      obtain ⟨ht, hr⟩ := h
      subst ht
      simp at hmem
    | cons m ms =>
      simp only [_PaginateMessagesLoop] at h
      split at h
      · rename_i e0 hcb
        simp only [PRun.out.injEq] at h
        obtain ⟨ht, hr⟩ := h
        subst ht; subst hr
        simp only [List.mem_singleton, Ev.callbackEv.injEq, Except.error.injEq] at hmem
        obtain ⟨h1, h2⟩ := hmem
        subst h1; subst h2
        exact ⟨rfl, rfl⟩
      · split at h
        · simp only [PRun.out.injEq] at h
          obtain ⟨ht, hr⟩ := h
          subst ht; subst hr
          simp at hmem
        · rename_i next hfetch
          rcases hrec : _PaginateMessagesLoop fetch channelID callback fuel next with ⟨t2, r2⟩ | t2
          · rw [hrec] at h
            simp only [consTrace, PRun.out.injEq] at h
            obtain ⟨ht, hr⟩ := h
            subst ht; subst hr
            simp only [List.mem_cons] at hmem
            rcases hmem with h1 | h2 | h3
            · exact absurd h1 (by simp)
            · exact absurd h2 (by simp)
            · have hne2 : t2 ≠ [] := List.ne_nil_of_mem h3
              obtain ⟨hlast, hres⟩ := ih next t2 r2 hrec page e h3
              refine ⟨?_, hres⟩
              cases t2 with
              | nil => exact absurd rfl hne2
              | cons a l =>
                rw [List.getLast?_cons_cons, List.getLast?_cons_cons]
                exact hlast
          · rw [hrec] at h
            simp [consTrace] at h

/-- C2: in every terminated pagination run, (1) the callback is invoked
exactly once per non-empty fetched page, (2) each non-empty fetched page is
passed to the callback verbatim and immediately, (3) after each successful
callback the next fetch uses the last (oldest) message's identifier of the
processed page as the `beforeID` cursor, (4) pagination returns success
exactly when a fetch returned zero messages, and (5) a callback error is the
final event and propagates wrapped with the processing prefix, distinct from
the fetch-failure prefix. -/
theorem paginate_trace_properties (fetch : FetchFn) (channelID : String)
    (callback : List Msg → Except String Unit) (fuel : Nat)
    (t : List Ev) (r : Except String Unit)
    (h : _PaginateMessages fetch channelID callback fuel = .out t r) :
    t.countP isCallbackEv = t.countP isFetchOkPage ∧
    pagesMatch t = true ∧
    cursorChain t = true ∧
    ((r = .ok ()) ↔ endsEmptyFetch t = true) ∧
    (∀ page e, (Ev.callbackEv page (.error e)) ∈ t →
      t.getLast? = some (Ev.callbackEv page (.error e)) ∧
      r = .error ("error when processing messages: " ++ e)) := by
  unfold _PaginateMessages at h
  split at h
  · simp only [PRun.out.injEq] at h
    obtain ⟨ht, hr⟩ := h
    subst ht; subst hr
    refine ⟨by simp [isCallbackEv, isFetchOkPage], rfl, rfl, by simp [endsEmptyFetch], ?_⟩
    intro page e2 hmem
    simp at hmem
  · rename_i messages hf
    rcases hrec : _PaginateMessagesLoop fetch channelID callback fuel messages with ⟨t2, r2⟩ | t2
    · rw [hrec] at h
      simp only [consTrace, PRun.out.injEq] at h
      obtain ⟨ht, hr⟩ := h
      subst ht; subst hr
      cases messages with
      | nil =>
        simp only [_PaginateMessagesLoop, PRun.out.injEq] at hrec
        obtain ⟨ht2, hr2⟩ := hrec
        subst ht2; subst hr2
        refine ⟨by simp [isCallbackEv, isFetchOkPage], rfl, rfl,
                by simp [endsEmptyFetch], ?_⟩
        intro page e2 hmem
        simp at hmem
      | cons m ms =>
        have hcount := paginateLoop_count fetch channelID callback fuel (m :: ms) t2 r2 hrec
        obtain ⟨hpm, hhead⟩ :=
          paginateLoop_pagesMatch fetch channelID callback fuel (m :: ms) t2 r2 hrec
        have hcc := paginateLoop_cursorChain fetch channelID callback fuel (m :: ms)
        rw [hrec] at hcc
        obtain ⟨hne2, hiff⟩ :=
          paginateLoop_ends fetch channelID callback fuel (m :: ms) t2 r2 (by simp) hrec
        have hcb := paginateLoop_cbError fetch channelID callback fuel (m :: ms) t2 r2 hrec
        refine ⟨?_, ?_, ?_, ?_, ?_⟩
        · simp only [List.countP_cons, isCallbackEv, isFetchOkPage] at hcount ⊢
          simp_all
        · obtain ⟨res2, rest, ht2⟩ := hhead m ms rfl
          subst ht2
          simp only [pagesMatch] at hpm ⊢
          simp_all
        · simpa [cursorChain, traceOf] using hcc
        · rw [endsEmptyFetch_cons _ _ hne2]
          exact hiff
        · intro page e2 hmem
          simp only [List.mem_cons] at hmem
          rcases hmem with h1 | h2
          · exact absurd h1 (by simp)
          · obtain ⟨hlast, hres⟩ := hcb page e2 h2
            refine ⟨?_, hres⟩
            cases t2 with
            | nil => exact absurd rfl hne2
            | cons a l =>
              rw [List.getLast?_cons_cons]
              exact hlast
    · rw [hrec] at h
      simp [consTrace] at h

/-- Witness for C2: the terminated run over the concrete 250-message channel
satisfies the trace properties; here, its cursor discipline. -/
theorem paginate_trace_properties_witness :
    cursorChain (traceOf run250) = true :=
  (paginate_trace_properties fetch250 ("c") (fun _ => .ok ()) 10
    (traceOf run250) (.ok ()) rfl).2.2.1

/-- If every oracle answer is a success response, the index writer returns
success with its single request. -/
theorem insertIndex_ok_of (doReq : DoFn)
    (hok : ∀ req, ∃ resp, doReq req = .ok resp ∧ resp.isError = false)
    (data : Document) (indexName : String) (documentID : String) :
    _InsertIndex doReq data indexName documentID =
      (.ok (), [{ index := indexName, documentID := documentID,
                  body := data, refresh := "true" }]) := by
  unfold _InsertIndex
  obtain ⟨resp, hresp, hie⟩ :=
    hok { index := indexName, documentID := documentID, body := data, refresh := "true" }
  simp [hresp, hie]

/-- If every oracle answer is a success response, the attachment projector
succeeds and issues exactly its one request. -/
theorem ingestAttachment_ok_of (doReq : DoFn)
    (hok : ∀ req, ∃ resp, doReq req = .ok resp ∧ resp.isError = false)
    (a : Attachment) (message : Msg) :
    _IngestAttachment doReq a message = (.ok (), [attachReq a message]) := by
  unfold _IngestAttachment
  rw [insertIndex_ok_of doReq hok]
  rfl

/-- If every attachment in the list projects successfully, the attachment
loop succeeds and issues the requests in original order. -/
theorem ingestAttachLoop_all_ok (doReq : DoFn) (message : Msg) :
    ∀ (l : List Attachment),
    (∀ x ∈ l, (_IngestAttachment doReq x message).1 = .ok ()) →
    ingestAttachLoop doReq message l = (.ok (), l.map (fun a => attachReq a message)) := by
  intro l
  induction l with
  | nil => intro _; rfl
  | cons x xs ih =>
    intro hall
    have hx1 : (_IngestAttachment doReq x message).1 = .ok () :=
      hall x (List.mem_cons_self x xs)
    have hx : _IngestAttachment doReq x message = (.ok (), [attachReq x message]) := by
      have h2 := ingestAttachment_snd doReq x message
      rcases hI : _IngestAttachment doReq x message with ⟨r0, t0⟩
      rw [hI] at hx1 h2
      simp at hx1 h2
      rw [hx1, h2]
    have hrest := ih (fun y hy => hall y (List.mem_cons_of_mem x hy))
    simp only [ingestAttachLoop, hx, hrest]
    simp

/-- If the attachments up to position i project successfully and attachment
i fails, the loop stops there: it returns that error unchanged and has
issued only the requests for positions 0..i. -/
theorem ingestAttachLoop_prefix_error (doReq : DoFn) (message : Msg)
    (a : Attachment) (l2 : List Attachment) (e : String)
    (ha : (_IngestAttachment doReq a message).1 = .error e) :
    ∀ (l1 : List Attachment),
    (∀ x ∈ l1, (_IngestAttachment doReq x message).1 = .ok ()) →
    ingestAttachLoop doReq message (l1 ++ a :: l2) =
      (.error e, (l1.map fun x => attachReq x message) ++ [attachReq a message]) := by
  intro l1
  induction l1 with
  | nil =>
    intro _
    have hpair : _IngestAttachment doReq a message = (.error e, [attachReq a message]) := by
      have h2 := ingestAttachment_snd doReq a message
      rcases hI : _IngestAttachment doReq a message with ⟨r0, t0⟩
      rw [hI] at ha h2
      simp at ha h2
      rw [ha, h2]
    simp only [List.nil_append, ingestAttachLoop, hpair, List.map_nil]
  | cons x xs ih =>
    intro hall
    have hx1 : (_IngestAttachment doReq x message).1 = .ok () :=
      hall x (List.mem_cons_self x xs)
    have hx : _IngestAttachment doReq x message = (.ok (), [attachReq x message]) := by
      have h2 := ingestAttachment_snd doReq x message
      rcases hI : _IngestAttachment doReq x message with ⟨r0, t0⟩
      rw [hI] at hx1 h2
      simp at hx1 h2
      rw [hx1, h2]
    have hrest := ih (fun y hy => hall y (List.mem_cons_of_mem x hy))
    simp only [List.cons_append, ingestAttachLoop, hx, List.append_eq, hrest,
               List.map_cons, List.singleton_append]
    simp

/-- C3: (a) if the message-level index write fails, `_IngestMessage` returns
the wrapped error immediately and issues no attachment writes (its only
request targets index "messages"); (b) if the projection of attachment i
fails after attachments 0..i-1 succeeded, the error propagates unchanged and
the requests issued are exactly the message write plus attachments 0..i —
later attachments are never attempted. -/
theorem ingestMessage_error_propagation (doReq : DoFn) (message : Msg) :
    (∀ e, (_InsertIndex doReq (messageDoc message) ("messages") message.id).1 = .error e →
      _IngestMessage doReq message =
        (.error ("error ingesting message: " ++ e), [msgReq message]) ∧
      ∀ req ∈ (_IngestMessage doReq message).2, ¬ req.index = "attachments") ∧
    (∀ (l1 : List Attachment) (a : Attachment) (l2 : List Attachment) (e : String),
      message.attachments = l1 ++ a :: l2 →
      (∀ x ∈ l1, (_IngestAttachment doReq x message).1 = .ok ()) →
      (_IngestAttachment doReq a message).1 = .error e →
      (_InsertIndex doReq (messageDoc message) ("messages") message.id).1 = .ok () →
      _IngestMessage doReq message =
        (.error e,
         msgReq message :: ((l1.map fun x => attachReq x message) ++ [attachReq a message]))) := by
  constructor
  · intro e he
    have h2 := insertIndex_snd doReq (messageDoc message) ("messages") message.id
    have heq : _IngestMessage doReq message =
        (.error ("error ingesting message: " ++ e), [msgReq message]) := by
      unfold _IngestMessage
      rcases hI : _InsertIndex doReq (messageDoc message) ("messages") message.id with ⟨r0, t0⟩
      rw [hI] at he h2
      simp only at he h2
      subst he
      subst h2
      rfl
    refine ⟨heq, ?_⟩
    rw [heq]
    intro req hreq
    rw [List.mem_singleton] at hreq
    subst hreq
    simp [msgReq]
  · intro l1 a l2 e hatt hpre ha hok
    have h2 := insertIndex_snd doReq (messageDoc message) ("messages") message.id
    unfold _IngestMessage
    rcases hI : _InsertIndex doReq (messageDoc message) ("messages") message.id with ⟨r0, t0⟩
    rw [hI] at hok h2
    simp only at hok h2
    subst hok
    subst h2
    rw [hatt, ingestAttachLoop_prefix_error doReq message a l2 e ha l1 hpre]
    simp [isErrE, msgReq]

/-- Witness for C3: with an oracle that accepts message documents but errors
on attachment documents, ingesting the two-attachment sample message writes
the message document and the first attachment request only, and returns the
first attachment's wrapped error. -/
theorem ingestMessage_error_propagation_witness :
    _IngestMessage doReqAttachFail msgW =
      (.error ("error ingesting attachment: boom"),
       [msgReq msgW, attachReq attachW1 msgW]) :=
  (ingestMessage_error_propagation doReqAttachFail msgW).2
    [] attachW1 [attachW2] ("error ingesting attachment: boom")
    rfl (fun x hx => absurd hx (List.not_mem_nil x)) rfl rfl

/-- C4: when every index write succeeds, ingesting a message writes exactly
one document to index "messages" keyed by the message's identifier, with
fields content, channel_id, author_id and timestamp, followed by exactly one
document per attachment, in original order, each to index "attachments"
keyed by the attachment's identifier, with fields filename, height, width,
size, url, proxy_url, the parent message's identifier and the parent
message's timestamp. -/
theorem ingestMessage_success_writes (doReq : DoFn) (message : Msg)
    (hok : ∀ req, ∃ resp, doReq req = .ok resp ∧ resp.isError = false) :
    _IngestMessage doReq message =
      (.ok (),
       { index := "messages", documentID := message.id,
         body := [("content", .s message.content),
                  ("channel_id", .s message.channelID),
                  ("author_id", .s message.author.id),
                  ("timestamp", .s message.timestamp)],
         refresh := "true" } ::
       message.attachments.map (fun a =>
         { index := "attachments", documentID := a.id,
           body := [("filename", .s a.filename),
                    ("height", .n a.height),
                    ("width", .n a.width),
                    ("size", .n a.size),
                    ("url", .s a.url),
                    ("proxy_url", .s a.proxyURL),
                    ("message_id", .s message.id),
                    ("timestamp", .s message.timestamp)],
           refresh := "true" })) := by
  have hall : ∀ x ∈ message.attachments, (_IngestAttachment doReq x message).1 = .ok () := by
    intro x _
    rw [ingestAttachment_ok_of doReq hok x message]
  unfold _IngestMessage
  rw [insertIndex_ok_of doReq hok]
  simp [isErrE, ingestAttachLoop_all_ok doReq message message.attachments hall,
        attachReq, attachmentDoc, messageDoc]

/-- Witness for C4: the all-success oracle on the two-attachment sample
message writes the three documents in order. -/
theorem ingestMessage_success_writes_witness :
    _IngestMessage doReqOK msgW =
      (.ok (), [msgReq msgW, attachReq attachW1 msgW, attachReq attachW2 msgW]) :=
  ingestMessage_success_writes doReqOK msgW (fun _ => ⟨respOK, rfl, rfl⟩)

/-- C5: `_InsertIndex` fails on a transport error (propagating it), fails on
an error-status response with a message carrying the response status,
succeeds otherwise, and errors if and only if the transport call errored or
the response status indicated failure. -/
theorem insertIndex_error_conditions (doReq : DoFn) (data : Document)
    (indexName : String) (documentID : String) :
    (∀ e, doReq { index := indexName, documentID := documentID,
                  body := data, refresh := "true" } = .error e →
      (_InsertIndex doReq data indexName documentID).1 = .error e) ∧
    (∀ resp, doReq { index := indexName, documentID := documentID,
                     body := data, refresh := "true" } = .ok resp →
      resp.isError = true →
      (_InsertIndex doReq data indexName documentID).1 =
        .error ("got status code " ++ resp.status)) ∧
    (∀ resp, doReq { index := indexName, documentID := documentID,
                     body := data, refresh := "true" } = .ok resp →
      resp.isError = false →
      (_InsertIndex doReq data indexName documentID).1 = .ok ()) ∧
    (isErrE (_InsertIndex doReq data indexName documentID).1 = true ↔
      ((∃ e, doReq { index := indexName, documentID := documentID,
                     body := data, refresh := "true" } = .error e) ∨
       (∃ resp, doReq { index := indexName, documentID := documentID,
                        body := data, refresh := "true" } = .ok resp ∧
                resp.isError = true))) := by
  refine ⟨?_, ?_, ?_, ?_⟩
  · intro e he
    simp [_InsertIndex, he]
  · intro resp hresp hie
    simp [_InsertIndex, hresp, hie]
  · intro resp hresp hie
    simp [_InsertIndex, hresp, hie]
  · constructor
    · intro hE
      rcases h : doReq { index := indexName, documentID := documentID,
                         body := data, refresh := "true" } with e | resp
      · exact Or.inl ⟨e, rfl⟩
      · refine Or.inr ⟨resp, rfl, ?_⟩
        by_cases hie : resp.isError
        · exact hie
        · simp [_InsertIndex, h, hie, isErrE] at hE
    · intro hor
      rcases hor with ⟨e, he⟩ | ⟨resp, hresp, hie⟩
      · simp [_InsertIndex, he, isErrE]
      · simp [_InsertIndex, hresp, hie, isErrE]

/-- Witness for C5: an oracle answering with a failure status makes the
write fail with an error carrying that status. -/
theorem insertIndex_error_conditions_witness :
    (_InsertIndex doReqBad (messageDoc msgW) ("messages") ("m1")).1 =
      .error ("got status code " ++ respBad.status) :=
  (insertIndex_error_conditions doReqBad (messageDoc msgW) ("messages") ("m1")).2.1
    respBad rfl rfl

/-- The loop on an empty page terminates at once with success and an empty
trace, whatever the fuel. -/
theorem paginateLoop_nil (fetch : FetchFn) (channelID : String)
    (callback : List Msg → Except String Unit) (fuel : Nat) :
    _PaginateMessagesLoop fetch channelID callback fuel [] = .out [] (.ok ()) := by
  cases fuel <;> rfl

/-- C6: an invocation whose author is not the hardcoded allowed identifier
performs no index writes and sends no chat message: the handler returns
silently. -/
theorem ingestHandler_unauthorized_silent (fetch : FetchFn) (doReq : DoFn)
    (message : Msg) (args : IngestArgs) (fuel : Nat)
    (h : ¬ message.author.id = "106162668032802816") :
    _IngestHandler fetch doReq message args fuel =
      some { writes := [], sends := [] } := by
  unfold _IngestHandler
  simp [h]

/-- Witness for C6: the unauthorized sample caller triggers no writes and no
sends. -/
theorem ingestHandler_unauthorized_silent_witness :
    _IngestHandler fetch250 doReqOK outsider { channelID := "c" } 10 =
      some { writes := [], sends := [] } :=
  ingestHandler_unauthorized_silent fetch250 doReqOK outsider { channelID := "c" } 10
    (by decide)

/-- C7: for an authorized caller, (1) a channel whose first fetch returns
zero messages completes successfully: no index writes, and the success
confirmation is posted to the invoking channel; (2) when pagination
terminates with an error, the handler posts exactly the error's text wrapped
in a preformatted code block. -/
theorem ingestHandler_empty_and_error_report (fetch : FetchFn) (doReq : DoFn)
    (message : Msg) (args : IngestArgs) (fuel : Nat)
    (hauth : message.author.id = "106162668032802816") :
    (fetch args.channelID 100 ("") ("") ("") = .ok [] →
      _IngestHandler fetch doReq message args fuel =
        some { writes := [],
               sends := [(message.channelID, "Channel messages successfully ingested.")] }) ∧
    (∀ t e,
      _PaginateMessages fetch args.channelID (fun p => (ingestPage doReq p).1) fuel =
        .out t (.error e) →
      _IngestHandler fetch doReq message args fuel =
        some { writes := writesOf doReq t,
               sends := [(message.channelID, "```\n" ++ e ++ "\n```")] }) := by
  constructor
  · intro hf
    have hpag : _PaginateMessages fetch args.channelID (fun p => (ingestPage doReq p).1) fuel =
        .out [.fetchEv args.channelID 100 ("") ("") ("") (.ok [])] (.ok ()) := by
      unfold _PaginateMessages
      rw [hf]
      simp [paginateLoop_nil, consTrace]
    unfold _IngestHandler
    rw [hauth]
    simp only [ne_eq, not_true_eq_false, if_false, hpag]
    simp [writesOf]
  · intro t e hpag
    unfold _IngestHandler
    rw [hauth]
    simp only [ne_eq, not_true_eq_false, if_false, hpag]

/-- Witness for C7: an authorized invocation over the empty channel posts
the confirmation and writes nothing. -/
theorem ingestHandler_empty_and_error_report_witness :
    _IngestHandler fetchEmpty doReqOK msgW { channelID := "c" } 5 =
      some { writes := [],
             sends := [(msgW.channelID, "Channel messages successfully ingested.")] } :=
  (ingestHandler_empty_and_error_report fetchEmpty doReqOK msgW { channelID := "c" } 5
    rfl).1 rfl

/-- If the transport call for message `m` errors and every earlier message's
call returned a response, the src/elkbot.go ingest loop hits the nil
response dereference: the run panics. -/
theorem elkbotGo_loop_panic (doReq : DoFn) (m : Msg) (post : List Msg) (e : String)
    (hm : doReq (ElkbotGo.reqOf m) = .error e) :
    ∀ (pre : List Msg), (∀ x ∈ pre, ∃ resp, doReq (ElkbotGo.reqOf x) = .ok resp) →
    ElkbotGo.ingestLoop doReq (pre ++ m :: post) = none := by
  intro pre
  induction pre with
  | nil =>
    intro _
    simp only [List.nil_append, ElkbotGo.ingestLoop, hm]
  | cons x xs ih =>
    intro hpre
    obtain ⟨resp, hx⟩ := hpre x (List.mem_cons_self x xs)
    have hrest := ih (fun y hy => hpre y (List.mem_cons_of_mem x hy))
    simp only [List.cons_append, ElkbotGo.ingestLoop, hx, List.append_eq, hrest]

/-- If every transport call returns a response (whatever its status), the
src/elkbot.go ingest loop issues one request per message, in order. -/
theorem elkbotGo_loop_all_ok (doReq : DoFn)
    (hok : ∀ r, ∃ resp, doReq r = .ok resp) :
    ∀ (l : List Msg), ElkbotGo.ingestLoop doReq l = some (l.map ElkbotGo.reqOf) := by
  intro l
  induction l with
  | nil => rfl
  | cons x xs ih =>
    obtain ⟨resp, hx⟩ := hok (ElkbotGo.reqOf x)
    simp only [ElkbotGo.ingestLoop, hx, ih, List.map_cons]

/-- C9: in the src/elkbot.go handler, a transport error from `req.Do` leaves
`resp` nil yet execution continues into `defer resp.Body.Close()` and
`resp.IsError()`; there is no early return, so the invocation dereferences
the nil response (modelled `none`) instead of completing. -/
theorem elkbotGo_transport_error_panics (fetch : FetchFn) (doReq : DoFn)
    (message : Msg) (args : IngestArgs) (pre : List Msg) (m : Msg)
    (post : List Msg) (e : String)
    (hf : fetch args.channelID 100 ("") ("") ("") = .ok (pre ++ m :: post))
    (hpre : ∀ x ∈ pre, ∃ resp, doReq (ElkbotGo.reqOf x) = .ok resp)
    (hm : doReq (ElkbotGo.reqOf m) = .error e) :
    ElkbotGo._IngestHandler fetch doReq message args =
      ([{ channelID := args.channelID, limit := 100,
          beforeID := "", afterID := "", aroundID := "" }], none) := by
  simp only [ElkbotGo._IngestHandler, hf, elkbotGo_loop_panic doReq m post e hm pre hpre]

/-- Witness for C9: a one-message channel with a dead index transport makes
the src/elkbot.go handler panic after its single fetch. -/
theorem elkbotGo_transport_error_panics_witness :
    ElkbotGo._IngestHandler fetchOne doReqDown msgW { channelID := "c" } =
      ([{ channelID := "c", limit := 100,
          beforeID := "", afterID := "", aroundID := "" }], none) :=
  elkbotGo_transport_error_panics fetchOne doReqDown msgW { channelID := "c" }
    [] (mkMsg 0) [] ("connection refused") rfl
    (fun x hx => absurd hx (List.not_mem_nil x)) rfl

/-- C10: the src/elkbot.go handler (1) issues exactly one history fetch per
invocation, with limit 100 and no cursor, (2) performs no caller
authorization — its behaviour does not depend on the invoking author, (3)
posts its confirmation message whenever every transport call returns a
response, regardless of any failure statuses among the individual index
writes, and (4) therefore indexes at most the 100 newest messages per
invocation. -/
theorem elkbotGo_single_fetch_no_auth (fetch : FetchFn) (doReq : DoFn)
    (m1 m2 : Msg) (args : IngestArgs) (msgs : List Msg) :
    (ElkbotGo._IngestHandler fetch doReq m1 args).1 =
      [{ channelID := args.channelID, limit := 100,
         beforeID := "", afterID := "", aroundID := "" }] ∧
    (m1.channelID = m2.channelID →
      ElkbotGo._IngestHandler fetch doReq m1 args =
        ElkbotGo._IngestHandler fetch doReq m2 args) ∧
    ((∀ r, ∃ resp, doReq r = .ok resp) →
      fetch args.channelID 100 ("") ("") ("") = .ok msgs →
      ElkbotGo._IngestHandler fetch doReq m1 args =
        ([{ channelID := args.channelID, limit := 100,
            beforeID := "", afterID := "", aroundID := "" }],
         some { writes := msgs.map ElkbotGo.reqOf,
                sends := [(m1.channelID,
                  "```go\n" ++ ElkbotGo.argsRepr args ++ "\n```")] })) ∧
    (msgs.length ≤ 100 → (msgs.map ElkbotGo.reqOf).length ≤ 100) := by
  refine ⟨?_, ?_, ?_, ?_⟩
  · rcases hf : fetch args.channelID 100 ("") ("") ("") with e | msgs2
    · simp [ElkbotGo._IngestHandler, hf]
    · rcases hl : ElkbotGo.ingestLoop doReq msgs2 with _ | ws <;>
        simp [ElkbotGo._IngestHandler, hf, hl]
  · intro h
    unfold ElkbotGo._IngestHandler
    rw [h]
  · intro hok hf
    simp only [ElkbotGo._IngestHandler, hf, elkbotGo_loop_all_ok doReq hok msgs]
  · intro hlen
    simpa using hlen

/-- Witness for C10: over a one-message channel with an all-success oracle,
the handler fetches once, writes one document and posts its confirmation. -/
theorem elkbotGo_single_fetch_no_auth_witness :
    ElkbotGo._IngestHandler fetchOne doReqOK msgW { channelID := "c" } =
      ([{ channelID := "c", limit := 100,
          beforeID := "", afterID := "", aroundID := "" }],
       some { writes := [ElkbotGo.reqOf (mkMsg 0)],
              sends := [(msgW.channelID,
                "```go\n" ++ ElkbotGo.argsRepr { channelID := "c" } ++ "\n```")] }) :=
  (elkbotGo_single_fetch_no_auth fetchOne doReqOK msgW msgW { channelID := "c" }
    [mkMsg 0]).2.2.1 (fun _ => ⟨respOK, rfl⟩) rfl
